import Mathlib

/-!
Verification of the `OnTheMinute` minute-aligned callback scheduler
(`src/index.ts`).

The embedding models:
* the wall clock as a millisecond count `now : ℕ` (so
  `Date.getSeconds()` is `now / 1000 % 60` and `Date.getMilliseconds()`
  is `now % 1000`);
* callbacks by their reference identity, as natural-number ids, since
  the registry (`Array<() => void>`) compares entries by `===`
  (`indexOf`);
* the behaviour of a callback body as a list of registry mutations it
  performs plus a flag saying whether it throws (`CbBehavior`), supplied
  as an environment `env : ℕ → CbBehavior`;
* the platform timer facility (`setTimeout` / `clearTimeout`) as a list
  of live `(token, target-fire-time)` pairs plus a fresh-token counter,
  so that "how many pending triggers exist" is observable.
-/

namespace OnTheMinute

/-- `new Date().getSeconds()` for a clock reading of `now` milliseconds. -/
def getSeconds (now : ℕ) : ℕ := now / 1000 % 60

/-- `new Date().getMilliseconds()` for a clock reading of `now` milliseconds. -/
def getMilliseconds (now : ℕ) : ℕ := now % 1000

/-- `millisecondsUntilNextMinute` from `src/index.ts`:
`secondsRemaining = 60 - now.getSeconds()`, and the result is
`secondsRemaining * 1000 - now.getMilliseconds()`. -/
def millisecondsUntilNextMinute (now : ℕ) : ℤ :=
  (60 - (getSeconds now : ℤ)) * 1000 - (getMilliseconds now : ℤ)

/-- `registerCallback` pushes the callback onto the registry
(`this.callbacks.push(callback)`). -/
def registerCallback (callbacks : List ℕ) (c : ℕ) : List ℕ := callbacks ++ [c]

/-- The unregister closure returned by `registerCallback`:
`indexOf` + `splice(index, 1)` removes the first entry identical to the
callback, and does nothing when no entry matches. -/
def unregister (callbacks : List ℕ) (c : ℕ) : List ℕ := callbacks.erase c

/-- A registry mutation a callback body may perform during dispatch. -/
inductive CbAction where
  | register (g : ℕ)
  | unregister (g : ℕ)
deriving DecidableEq

/-- The observable behaviour of one callback body: the registry
mutations it performs, and whether it throws afterwards. -/
structure CbBehavior where
  actions : List CbAction
  throws : Bool

/-- Apply one registry mutation performed by a callback. -/
def applyAction (callbacks : List ℕ) : CbAction → List ℕ
  | .register g => registerCallback callbacks g
  | .unregister g => unregister callbacks g

/-- The diagnostic message of the `catch` block in `executeCallbacks`:
`console.error("Error in minute timer callback:", error)`. -/
def errMsg : String := "Error in minute timer callback:"

/-- Run one callback body against the live registry: its mutations are
applied, and it reports an error message exactly when it throws. -/
def invokeCallback (env : ℕ → CbBehavior) (callbacks : List ℕ) (c : ℕ) :
    List ℕ × Option String :=
  ((env c).actions.foldl applyAction callbacks,
    if (env c).throws then some errMsg else none)

/-- The running state of one dispatch: the live registry, the diagnostic
log so far, and the callbacks invoked so far. -/
structure DispatchResult where
  callbacks : List ℕ
  errlog : List String
  invoked : List ℕ
deriving DecidableEq

/-- One iteration of the `for` loop in `executeCallbacks`: invoke the
callback inside `try`/`catch`, appending any error to the log, and
continue. -/
def dispatchStep (env : ℕ → CbBehavior) (acc : DispatchResult) (c : ℕ) :
    DispatchResult :=
  let r := invokeCallback env acc.callbacks c
  { callbacks := r.1
    errlog := acc.errlog ++ r.2.toList
    invoked := acc.invoked ++ [c] }

/-- `executeCallbacks` from `src/index.ts`: take a shallow copy of the
registry (`const callbacksToExecute = [...this.callbacks]`) and invoke
each entry of the copy in order, each inside `try`/`catch`. -/
def executeCallbacks (env : ℕ → CbBehavior) (callbacks : List ℕ) :
    DispatchResult :=
  let callbacksToExecute := callbacks
  callbacksToExecute.foldl (dispatchStep env) ⟨callbacks, [], []⟩

/-- The scheduler instance together with the platform clock and timer
facility. `timerId` is the `timerId` field; `liveTimers` holds the
scheduled-but-not-yet-fired-or-cancelled timeouts as
`(token, target fire time)` pairs; `nextToken` allocates fresh tokens. -/
structure Sys where
  now : ℕ
  timerId : Option ℕ
  callbacks : List ℕ
  liveTimers : List (ℕ × ℕ)
  nextToken : ℕ
  errlog : List String
deriving DecidableEq

/-- `clearTimeout(t)`: the timeout with token `t` is no longer live. -/
def clearTimeout (sys : Sys) (t : ℕ) : Sys :=
  { sys with liveTimers := sys.liveTimers.filter (fun p => p.1 != t) }

/-- `stop` from `src/index.ts`: if `timerId` is not null, clear the
timeout and null the field; otherwise do nothing. -/
def stop (sys : Sys) : Sys :=
  match sys.timerId with
  | none => sys
  | some t => { clearTimeout sys t with timerId := none }

/-- `setTimeout(handler, delay)`: allocate a fresh token and schedule a
one-shot timeout to fire `delay` milliseconds from now. -/
def setTimeout (sys : Sys) (delay : ℕ) : Sys × ℕ :=
  ({ sys with
      liveTimers := sys.liveTimers ++ [(sys.nextToken, sys.now + delay)]
      nextToken := sys.nextToken + 1 }, sys.nextToken)

/-- `scheduleNextTick` from `src/index.ts`: compute
`millisecondsUntilNextMinute()` from the live clock and store the token
of a fresh one-shot timeout in `timerId`. -/
def scheduleNextTick (sys : Sys) : Sys :=
  let msUntilNextMinute := (millisecondsUntilNextMinute sys.now).toNat
  let r := setTimeout sys msUntilNextMinute
  { r.1 with timerId := some r.2 }

/-- `start` from `src/index.ts`: `this.stop(); this.scheduleNextTick()`. -/
def start (sys : Sys) : Sys := scheduleNextTick (stop sys)

/-- `destroy` from `src/index.ts`: `this.stop(); this.callbacks = []`. -/
def destroy (sys : Sys) : Sys := { stop sys with callbacks := [] }

/-- `registerCallback` acting on the whole instance. -/
def registerCallbackSys (sys : Sys) (c : ℕ) : Sys :=
  { sys with callbacks := registerCallback sys.callbacks c }

/-- Invoking an unregister handle, acting on the whole instance. -/
def unregisterSys (sys : Sys) (c : ℕ) : Sys :=
  { sys with callbacks := unregister sys.callbacks c }

/-- The dispatch half of the timeout handler: run `executeCallbacks`
against the instance, updating the registry and appending to the
diagnostic log. -/
def dispatchSys (env : ℕ → CbBehavior) (sys : Sys) : Sys :=
  let r := executeCallbacks env sys.callbacks
  { sys with callbacks := r.callbacks, errlog := sys.errlog ++ r.errlog }

/-- The scheduled timeout fires at wall-clock time `F`: if the stored
`timerId` names a live timeout whose target is at or before `F`, that
timeout stops being live and its handler runs —
`this.executeCallbacks(); this.scheduleNextTick()` — at clock `F`.
Otherwise (timer stopped or not yet due) nothing happens. -/
def tick (env : ℕ → CbBehavior) (F : ℕ) (sys : Sys) : Sys :=
  match sys.timerId with
  | none => sys
  | some t =>
    match (sys.liveTimers.find? (fun p => p.1 == t)) with
    | none => sys
    | some p =>
      if p.2 ≤ F then
        scheduleNextTick (dispatchSys env { clearTimeout sys t with now := F })
      else sys

/-- The field initialisers of the class: `timerId = null`,
`callbacks = []`, at clock reading `T0`, before the constructor body. -/
def initState (T0 : ℕ) : Sys :=
  { now := T0, timerId := none, callbacks := [], liveTimers := []
    nextToken := 0, errlog := [] }

/-- The constructor: initialise the fields, then `this.start()`. -/
def construct (T0 : ℕ) : Sys := start (initState T0)

/-- One externally triggerable step: a public method call or the firing
of the pending timeout. -/
inductive Op where
  | start
  | stop
  | destroy
  | register (c : ℕ)
  | unregister (c : ℕ)
  | tick (F : ℕ)

/-- Apply one step to the instance. -/
def applyOp (env : ℕ → CbBehavior) (sys : Sys) : Op → Sys
  | .start => start sys
  | .stop => stop sys
  | .destroy => destroy sys
  | .register c => registerCallbackSys sys c
  | .unregister c => unregisterSys sys c
  | .tick F => tick env F sys

/-- States reachable from a freshly constructed instance by any sequence
of method calls and timeout firings. -/
inductive Reachable (env : ℕ → CbBehavior) (T0 : ℕ) : Sys → Prop
  | init : Reachable env T0 (construct T0)
  | step (sys : Sys) (op : Op) :
      Reachable env T0 sys → Reachable env T0 (applyOp env sys op)

/-- The pending-trigger invariant: either no timeout is live, or exactly
one is and `timerId` holds its token. -/
def TimerInv (sys : Sys) : Prop :=
  sys.liveTimers = [] ∨
    ∃ p, sys.liveTimers = [p] ∧ sys.timerId = some p.1

/-- C1: for every wall-clock time, `millisecondsUntilNextMinute` returns
exactly `(60 − s) * 1000 − m` where `s`, `m` are the seconds and
milliseconds components; the value always lies in `(0, 60000]`, and on
an exact minute boundary (`s = 0`, `m = 0`) it is `60000`, the delay to
the next boundary rather than the current one. -/
theorem millisecondsUntilNextMinute_spec (now : ℕ) :
    millisecondsUntilNextMinute now =
      (60 - (getSeconds now : ℤ)) * 1000 - (getMilliseconds now : ℤ) ∧
    0 < millisecondsUntilNextMinute now ∧
    millisecondsUntilNextMinute now ≤ 60000 ∧
    (getSeconds now = 0 ∧ getMilliseconds now = 0 →
      millisecondsUntilNextMinute now = 60000) := by
  have hs : getSeconds now ≤ 59 := by unfold getSeconds; omega
  have hm : getMilliseconds now ≤ 999 := by unfold getMilliseconds; omega
  refine ⟨rfl, ?_, ?_, ?_⟩
  · unfold millisecondsUntilNextMinute
    omega
  · unfold millisecondsUntilNextMinute
    omega
  · rintro ⟨h1, h2⟩
    unfold millisecondsUntilNextMinute
    rw [h1, h2]
    decide

/-- The invocation log of a dispatch loop: every element of the iterated
snapshot is invoked, in order, whatever the accumulated registry is. -/
lemma foldl_dispatchStep_invoked (env : ℕ → CbBehavior) (l : List ℕ)
    (acc : DispatchResult) :
    (l.foldl (dispatchStep env) acc).invoked = acc.invoked ++ l := by
  induction l generalizing acc with
  | nil => simp
  | cons c l ih => simp [ih, dispatchStep]

/-- The diagnostic log of a dispatch loop: one `errMsg` entry per
throwing callback of the iterated snapshot, in order. -/
lemma foldl_dispatchStep_errlog (env : ℕ → CbBehavior) (l : List ℕ)
    (acc : DispatchResult) :
    (l.foldl (dispatchStep env) acc).errlog =
      acc.errlog ++ (l.filter (fun c => (env c).throws)).map (fun _ => errMsg) := by
  induction l generalizing acc with
  | nil => simp
  | cons c l ih =>
    simp only [List.foldl_cons, ih, List.filter_cons]
    by_cases h : (env c).throws <;>
      simp [dispatchStep, invokeCallback, h]

/-- The registry produced by a dispatch loop depends only on the
callbacks' mutations, never on whether they throw. -/
lemma foldl_dispatchStep_callbacks (env env' : ℕ → CbBehavior)
    (hact : ∀ c, (env c).actions = (env' c).actions) (l : List ℕ) :
    ∀ acc acc' : DispatchResult, acc.callbacks = acc'.callbacks →
      (l.foldl (dispatchStep env) acc).callbacks =
        (l.foldl (dispatchStep env') acc').callbacks := by
  induction l with
  | nil => intro acc acc' h; simpa using h
  | cons c l ih =>
    intro acc acc' h
    refine ih _ _ ?_
    simp [dispatchStep, invokeCallback, hact c, h]

/-- The registry after a dispatch loop is the fold of all the mutations
performed by the iterated callbacks over the starting registry. -/
lemma foldl_dispatchStep_callbacks_eq (env : ℕ → CbBehavior) (l : List ℕ)
    (acc : DispatchResult) :
    (l.foldl (dispatchStep env) acc).callbacks =
      l.foldl (fun cbs c => (env c).actions.foldl applyAction cbs)
        acc.callbacks := by
  induction l generalizing acc with
  | nil => rfl
  | cons c l ih => simp [List.foldl_cons, ih, dispatchStep, invokeCallback]

/-- `executeCallbacks` invokes exactly the snapshot taken at entry. -/
lemma executeCallbacks_invoked (env : ℕ → CbBehavior) (cbs : List ℕ) :
    (executeCallbacks env cbs).invoked = cbs := by
  simpa [executeCallbacks] using
    foldl_dispatchStep_invoked env cbs ⟨cbs, [], []⟩

/-- `executeCallbacks` reports one `errMsg` per throwing callback. -/
lemma executeCallbacks_errlog (env : ℕ → CbBehavior) (cbs : List ℕ) :
    (executeCallbacks env cbs).errlog =
      (cbs.filter (fun c => (env c).throws)).map (fun _ => errMsg) := by
  simpa [executeCallbacks] using
    foldl_dispatchStep_errlog env cbs ⟨cbs, [], []⟩

/-- C3: the dispatch step snapshots the registry at the moment of firing
and invokes exactly the snapshot, in snapshot order, no matter what
registry mutations the callbacks perform (`invoked = cbs` holds for
every behaviour environment); the mutations are applied to the live
registry (third conjunct), and they take effect only from the next tick
onward: the next dispatch invokes exactly the mutated registry. -/
theorem executeCallbacks_snapshot (env : ℕ → CbBehavior) (cbs : List ℕ) :
    (executeCallbacks env cbs).invoked = cbs ∧
    (executeCallbacks env (executeCallbacks env cbs).callbacks).invoked =
      (executeCallbacks env cbs).callbacks ∧
    (executeCallbacks env cbs).callbacks =
      cbs.foldl (fun l c => (env c).actions.foldl applyAction l) cbs :=
  ⟨executeCallbacks_invoked env cbs, executeCallbacks_invoked env _,
    foldl_dispatchStep_callbacks_eq env cbs ⟨cbs, [], []⟩⟩

/-- C4: a throwing callback is caught at single-callback granularity:
every callback of the snapshot is still invoked (including all those
after the failing one), each failure adds exactly one report,
identifying a minute timer callback, to the diagnostic log, the
resulting registry and invocation list are the same as if no callback
had thrown, and dispatch never touches the pending trigger, the clock,
or the token counter (so the scheduler keeps running). Nothing is
propagated to the caller: `executeCallbacks` is a total function. -/
theorem executeCallbacks_error_isolation (env env' : ℕ → CbBehavior)
    (cbs : List ℕ) (sys : Sys)
    (hact : ∀ c, (env c).actions = (env' c).actions) :
    (executeCallbacks env cbs).invoked = cbs ∧
    (executeCallbacks env cbs).errlog =
      (cbs.filter (fun c => (env c).throws)).map (fun _ => errMsg) ∧
    errMsg = "Error in minute timer callback:" ∧
    (executeCallbacks env cbs).callbacks =
      (executeCallbacks env' cbs).callbacks ∧
    (executeCallbacks env cbs).invoked = (executeCallbacks env' cbs).invoked ∧
    (dispatchSys env sys).timerId = sys.timerId ∧
    (dispatchSys env sys).liveTimers = sys.liveTimers ∧
    (dispatchSys env sys).now = sys.now ∧
    (dispatchSys env sys).nextToken = sys.nextToken := by
  refine ⟨executeCallbacks_invoked env cbs, executeCallbacks_errlog env cbs,
    rfl, ?_, ?_, rfl, rfl, rfl, rfl⟩
  · exact foldl_dispatchStep_callbacks env env' hact cbs ⟨cbs, [], []⟩
      ⟨cbs, [], []⟩ rfl
  · rw [executeCallbacks_invoked env cbs, executeCallbacks_invoked env' cbs]

/-- Registering and then unregistering a callback not already present
restores the registry. -/
lemma unregister_registerCallback (pre : List ℕ) (c : ℕ) (hpre : c ∉ pre) :
    unregister (registerCallback pre c) c = pre := by
  unfold unregister registerCallback
  rw [List.erase_append_right _ hpre, List.erase_cons_head]
  simp

/-- C5: `registerCallback` appends the callback to the end of the
registry; the returned handle removes the first entry identical to the
callback when one is present; it is a no-op when no entry matches; once
it has consumed its entry a second invocation changes nothing; and a
registration followed immediately by its unregistration leaves the
registry as before, so the callback is never invoked by a subsequent
tick. -/
theorem registerCallback_unregister_spec (pre post : List ℕ) (c : ℕ)
    (env : ℕ → CbBehavior) (hpre : c ∉ pre) :
    registerCallback pre c = pre ++ [c] ∧
    unregister (pre ++ c :: post) c = pre ++ post ∧
    unregister pre c = pre ∧
    unregister (unregister (registerCallback pre c) c) c =
      unregister (registerCallback pre c) c ∧
    unregister (registerCallback pre c) c = pre ∧
    c ∉ (executeCallbacks env (unregister (registerCallback pre c) c)).invoked := by
  have hreg : unregister (registerCallback pre c) c = pre :=
    unregister_registerCallback pre c hpre
  have hnoop : unregister pre c = pre := List.erase_of_not_mem hpre
  refine ⟨rfl, ?_, hnoop, ?_, hreg, ?_⟩
  · unfold unregister
    rw [List.erase_append_right _ hpre, List.erase_cons_head]
  · rw [hreg, hnoop]
  · rw [hreg, executeCallbacks_invoked]
    exact hpre

/-- C10: unregister handles are bound to the callback's identity, not to
one registry entry: registering the same callback twice yields two
registry entries, the callback is invoked twice in a tick, each
invocation of the (identical) handle removes the first remaining
matching entry — so invoking a handle twice removes both entries, and
the second invocation is not a no-op while a duplicate remains. -/
theorem duplicate_registration_spec (cbs : List ℕ) (c : ℕ)
    (env : ℕ → CbBehavior) (h : c ∉ cbs) :
    (registerCallback (registerCallback cbs c) c).count c = 2 ∧
    ((executeCallbacks env
        (registerCallback (registerCallback cbs c) c)).invoked).count c = 2 ∧
    unregister (registerCallback (registerCallback cbs c) c) c =
      registerCallback cbs c ∧
    (unregister (registerCallback (registerCallback cbs c) c) c).count c = 1 ∧
    unregister (unregister (registerCallback (registerCallback cbs c) c) c) c
      = cbs ∧
    (unregister (unregister (registerCallback (registerCallback cbs c) c) c)
        c).count c = 0 ∧
    unregister (unregister (registerCallback (registerCallback cbs c) c) c) c
      ≠ unregister (registerCallback (registerCallback cbs c) c) c := by
  have hcount0 : cbs.count c = 0 := List.count_eq_zero.mpr h
  have herase1 : unregister (registerCallback (registerCallback cbs c) c) c =
      registerCallback cbs c := by
    unfold unregister registerCallback
    rw [List.erase_append_left [c] (show c ∈ cbs ++ [c] by simp),
      List.erase_append_right _ h, List.erase_cons_head]
    simp
  have herase2 :
      unregister (unregister (registerCallback (registerCallback cbs c) c) c)
        c = cbs := by
    rw [herase1]
    exact unregister_registerCallback cbs c h
  refine ⟨?_, ?_, herase1, ?_, herase2, ?_, ?_⟩
  · unfold registerCallback
    simp [hcount0]
  · rw [executeCallbacks_invoked]
    unfold registerCallback
    simp [hcount0]
  · rw [herase1]
    unfold registerCallback
    simp [hcount0]
  · rw [herase2]
    exact hcount0
  · rw [herase2, herase1]
    intro heq
    have := congrArg List.length heq
    unfold registerCallback at this
    simp at this

/-- The delay computed by `millisecondsUntilNextMinute` always lands
exactly on a minute boundary of the clock it was computed from. -/
lemma millisecondsUntilNextMinute_aligned (now : ℕ) :
    (now + (millisecondsUntilNextMinute now).toNat) % 60000 = 0 := by
  have h : (millisecondsUntilNextMinute now).toNat = 60000 - now % 60000 := by
    unfold millisecondsUntilNextMinute getSeconds getMilliseconds
    omega
  omega

/-- `stop` nulls the `timerId` field in either branch. -/
lemma stop_timerId (sys : Sys) : (stop sys).timerId = none := by
  unfold stop
  cases h : sys.timerId <;> simp [h, clearTimeout]

/-- `stop` never touches the callback registry. -/
lemma stop_callbacks (sys : Sys) : (stop sys).callbacks = sys.callbacks := by
  unfold stop
  cases h : sys.timerId <;> simp [clearTimeout]

/-- `stop` never touches the clock. -/
lemma stop_now (sys : Sys) : (stop sys).now = sys.now := by
  unfold stop
  cases h : sys.timerId <;> simp [clearTimeout]

/-- `stop` never touches the token counter. -/
lemma stop_nextToken (sys : Sys) : (stop sys).nextToken = sys.nextToken := by
  unfold stop
  cases h : sys.timerId <;> simp [clearTimeout]

/-- `stop` never touches the diagnostic log. -/
lemma stop_errlog (sys : Sys) : (stop sys).errlog = sys.errlog := by
  unfold stop
  cases h : sys.timerId <;> simp [clearTimeout]

/-- Clearing the timeout named by `timerId` leaves no live timeout,
given the pending-trigger invariant. -/
lemma clearTimeout_live_of_inv (sys : Sys) (t : ℕ) (h : TimerInv sys)
    (ht : sys.timerId = some t) : (clearTimeout sys t).liveTimers = [] := by
  rcases h with h | ⟨p, hp, ht'⟩
  · simp [clearTimeout, h]
  · have hpt : p.1 = t := by
      rw [ht] at ht'
      exact (Option.some.inj ht').symm
    simp [clearTimeout, hp, hpt]

/-- Under the pending-trigger invariant, `stop` leaves no live timeout. -/
lemma stop_liveTimers (sys : Sys) (h : TimerInv sys) :
    (stop sys).liveTimers = [] := by
  unfold stop
  cases ht : sys.timerId with
  | none =>
    rcases h with h | ⟨p, hp, ht'⟩
    · exact h
    · rw [ht] at ht'
      exact absurd ht' (by simp)
  | some t => exact clearTimeout_live_of_inv sys t h ht

/-- Under the pending-trigger invariant, `start` leaves exactly one live
timeout: a fresh one targeting the next minute boundary. -/
lemma start_liveTimers (sys : Sys) (h : TimerInv sys) :
    (start sys).liveTimers =
      [(sys.nextToken,
        sys.now + (millisecondsUntilNextMinute sys.now).toNat)] := by
  show (stop sys).liveTimers ++
      [((stop sys).nextToken,
        (stop sys).now +
          (millisecondsUntilNextMinute (stop sys).now).toNat)] = _
  rw [stop_liveTimers sys h, stop_nextToken, stop_now]
  rfl

/-- `start` stores the fresh timeout's token in `timerId`. -/
lemma start_timerId (sys : Sys) : (start sys).timerId = some sys.nextToken := by
  show some (stop sys).nextToken = _
  rw [stop_nextToken]

/-- `start` preserves the callback registry. -/
lemma start_callbacks (sys : Sys) : (start sys).callbacks = sys.callbacks := by
  show (stop sys).callbacks = _
  exact stop_callbacks sys

/-- `start` preserves the pending-trigger invariant. -/
lemma timerInv_start (sys : Sys) (h : TimerInv sys) : TimerInv (start sys) :=
  Or.inr ⟨(sys.nextToken, sys.now + (millisecondsUntilNextMinute sys.now).toNat),
    start_liveTimers sys h, by rw [start_timerId]⟩

/-- `stop` preserves the pending-trigger invariant. -/
lemma timerInv_stop (sys : Sys) (h : TimerInv sys) : TimerInv (stop sys) :=
  Or.inl (stop_liveTimers sys h)

/-- `destroy` preserves the pending-trigger invariant. -/
lemma timerInv_destroy (sys : Sys) (h : TimerInv sys) : TimerInv (destroy sys) :=
  Or.inl (stop_liveTimers sys h)

/-- With the timer stopped (`timerId = null`), nothing ever fires. -/
lemma tick_of_stopped (env : ℕ → CbBehavior) (F : ℕ) (sys : Sys)
    (h : sys.timerId = none) : tick env F sys = sys := by
  unfold tick
  simp only [h]

/-- When `timerId` names a live timeout due at or before `F`, the
firing runs the handler: dispatch, then re-arm from the clock at `F`. -/
lemma tick_fires (env : ℕ → CbBehavior) (F : ℕ) (sys : Sys) (t : ℕ)
    (p : ℕ × ℕ) (ht : sys.timerId = some t)
    (hf : sys.liveTimers.find? (fun q => q.1 == t) = some p)
    (hp : p.2 ≤ F) :
    tick env F sys =
      scheduleNextTick (dispatchSys env { clearTimeout sys t with now := F }) := by
  unfold tick
  simp only [ht, hf, if_pos hp]

/-- A timeout that is not yet due does not fire. -/
lemma tick_not_due (env : ℕ → CbBehavior) (F : ℕ) (sys : Sys) (t : ℕ)
    (p : ℕ × ℕ) (ht : sys.timerId = some t)
    (hf : sys.liveTimers.find? (fun q => q.1 == t) = some p)
    (hp : ¬ p.2 ≤ F) : tick env F sys = sys := by
  unfold tick
  simp only [ht, hf, if_neg hp]

/-- A `timerId` naming no live timeout cannot fire. -/
lemma tick_no_live (env : ℕ → CbBehavior) (F : ℕ) (sys : Sys) (t : ℕ)
    (ht : sys.timerId = some t)
    (hf : sys.liveTimers.find? (fun q => q.1 == t) = none) :
    tick env F sys = sys := by
  unfold tick
  simp only [ht, hf]

/-- A timeout firing preserves the pending-trigger invariant. -/
lemma timerInv_tick (env : ℕ → CbBehavior) (F : ℕ) (sys : Sys)
    (h : TimerInv sys) : TimerInv (tick env F sys) := by
  cases ht : sys.timerId with
  | none =>
    rw [tick_of_stopped env F sys ht]
    exact h
  | some t =>
    cases hf : sys.liveTimers.find? (fun q => q.1 == t) with
    | none =>
      rw [tick_no_live env F sys t ht hf]
      exact h
    | some p =>
      by_cases hp : p.2 ≤ F
      · rw [tick_fires env F sys t p ht hf hp]
        right
        refine ⟨(sys.nextToken, F + (millisecondsUntilNextMinute F).toNat),
          ?_, rfl⟩
        show (clearTimeout sys t).liveTimers ++
            [(sys.nextToken, F + (millisecondsUntilNextMinute F).toNat)] = _
        rw [clearTimeout_live_of_inv sys t h ht]
        rfl
      · rw [tick_not_due env F sys t p ht hf hp]
        exact h

/-- Every public method and every timeout firing preserves the
pending-trigger invariant. -/
lemma timerInv_applyOp (env : ℕ → CbBehavior) (sys : Sys) (op : Op)
    (h : TimerInv sys) : TimerInv (applyOp env sys op) := by
  cases op with
  | start => exact timerInv_start sys h
  | stop => exact timerInv_stop sys h
  | destroy => exact timerInv_destroy sys h
  | register c => exact h
  | unregister c => exact h
  | tick F => exact timerInv_tick env F sys h

/-- A freshly constructed instance satisfies the invariant. -/
lemma timerInv_construct (T0 : ℕ) : TimerInv (construct T0) :=
  timerInv_start _ (Or.inl rfl)

/-- Every reachable state satisfies the pending-trigger invariant. -/
lemma timerInv_reachable (env : ℕ → CbBehavior) (T0 : ℕ) (sys : Sys)
    (h : Reachable env T0 sys) : TimerInv sys := by
  induction h with
  | init => exact timerInv_construct T0
  | step sys op _ ih => exact timerInv_applyOp env sys op ih

/-- `stop` on an already-stopped instance does nothing. -/
lemma stop_of_timerId_none (sys : Sys) (h : sys.timerId = none) :
    stop sys = sys := by
  unfold stop
  simp only [h]

/-- C2: `start()` schedules a one-shot trigger for exactly the delay to
the next minute boundary computed from the live clock; when the pending
trigger fires at time `F`, the handler first runs the dispatch step
(the post-tick registry and diagnostic log are those produced by
`executeCallbacks` on the pre-tick registry) and then re-arms with a
fresh one-shot trigger whose target is recomputed from the live clock
at `F` — drift policy (A), self-correcting — and that target is always
exactly on a minute boundary, never a fixed 60000 ms period. -/
theorem scheduling_self_correcting (env : ℕ → CbBehavior) (sys : Sys)
    (F t target : ℕ) (ht : sys.timerId = some t)
    (hlive : sys.liveTimers = [(t, target)]) (hF : target ≤ F) :
    (start sys).liveTimers =
      [(sys.nextToken,
        sys.now + (millisecondsUntilNextMinute sys.now).toNat)] ∧
    (start sys).timerId = some sys.nextToken ∧
    tick env F sys =
      scheduleNextTick (dispatchSys env { clearTimeout sys t with now := F }) ∧
    (tick env F sys).timerId = some sys.nextToken ∧
    (tick env F sys).liveTimers =
      [(sys.nextToken, F + (millisecondsUntilNextMinute F).toNat)] ∧
    (F + (millisecondsUntilNextMinute F).toNat) % 60000 = 0 ∧
    (tick env F sys).callbacks =
      (executeCallbacks env sys.callbacks).callbacks ∧
    (tick env F sys).errlog =
      sys.errlog ++ (executeCallbacks env sys.callbacks).errlog := by
  have hInv : TimerInv sys := Or.inr ⟨(t, target), hlive, by rw [ht]⟩
  have hf : sys.liveTimers.find? (fun q => q.1 == t) = some (t, target) := by
    rw [hlive]
    simp
  have htick := tick_fires env F sys t (t, target) ht hf hF
  refine ⟨start_liveTimers sys hInv, start_timerId sys, htick, ?_, ?_,
    millisecondsUntilNextMinute_aligned F, ?_, ?_⟩
  · rw [htick]
    rfl
  · rw [htick]
    show (clearTimeout sys t).liveTimers ++
        [(sys.nextToken, F + (millisecondsUntilNextMinute F).toNat)] = _
    rw [clearTimeout_live_of_inv sys t hInv ht]
    rfl
  · rw [htick]
    rfl
  · rw [htick]
    rfl

/-- C6: at every reachable state there is at most one live pending
trigger; `start` is `scheduleNextTick` after `stop`, so starting while
running first cancels the old trigger (after `stop` nothing is live)
and the restarted instance has exactly one live trigger. -/
theorem pending_trigger_unique (env : ℕ → CbBehavior) (T0 : ℕ) (sys : Sys)
    (h : Reachable env T0 sys) :
    sys.liveTimers.length ≤ 1 ∧
    start sys = scheduleNextTick (stop sys) ∧
    (stop sys).liveTimers = [] ∧
    (start sys).liveTimers.length = 1 := by
  have hInv := timerInv_reachable env T0 sys h
  refine ⟨?_, rfl, stop_liveTimers sys hInv, ?_⟩
  · rcases hInv with h1 | ⟨p, hp, _⟩
    · rw [h1]
      simp
    · rw [hp]
      simp
  · rw [start_liveTimers sys hInv]
    rfl

/-- C7: `stop()` cancels the pending trigger (no timeout stays live),
nulls `timerId` (the Stopped state), leaves the registry and the
diagnostic log untouched, is idempotent, and afterwards no firing ever
happens: `tick` is a no-op on a stopped instance, so no callback runs
at any later minute boundary. -/
theorem stop_spec (sys : Sys) (env : ℕ → CbBehavior) (F : ℕ)
    (h : TimerInv sys) :
    (stop sys).timerId = none ∧
    (stop sys).liveTimers = [] ∧
    (stop sys).callbacks = sys.callbacks ∧
    (stop sys).errlog = sys.errlog ∧
    stop (stop sys) = stop sys ∧
    tick env F (stop sys) = stop sys :=
  ⟨stop_timerId sys, stop_liveTimers sys h, stop_callbacks sys,
    stop_errlog sys, stop_of_timerId_none (stop sys) (stop_timerId sys),
    tick_of_stopped env F (stop sys) (stop_timerId sys)⟩

/-- C8: `destroy()` is `stop()` followed by clearing the registry: the
pending trigger is cancelled, the state is Stopped, and immediately
after `destroy` the registry is empty (size 0). -/
theorem destroy_spec (sys : Sys) (h : TimerInv sys) :
    destroy sys = { stop sys with callbacks := [] } ∧
    (destroy sys).callbacks = [] ∧
    (destroy sys).callbacks.length = 0 ∧
    (destroy sys).timerId = none ∧
    (destroy sys).liveTimers = [] ∧
    (destroy sys).errlog = sys.errlog :=
  ⟨rfl, rfl, rfl, stop_timerId sys, stop_liveTimers sys h, stop_errlog sys⟩

/-- C9: the constructor takes no input beyond the ambient clock,
initialises the instance Stopped (no `timerId`, empty registry, nothing
live), and immediately calls `start()`, so a freshly constructed
instance already has one pending trigger, targeting exactly the next
minute boundary. -/
theorem construct_spec (T0 : ℕ) :
    (initState T0).timerId = none ∧
    (initState T0).callbacks = [] ∧
    (initState T0).liveTimers = [] ∧
    construct T0 = start (initState T0) ∧
    (construct T0).callbacks = [] ∧
    (construct T0).timerId = some 0 ∧
    (construct T0).liveTimers =
      [(0, T0 + (millisecondsUntilNextMinute T0).toNat)] ∧
    (T0 + (millisecondsUntilNextMinute T0).toNat) % 60000 = 0 :=
  ⟨rfl, rfl, rfl, rfl, rfl, rfl, rfl,
    millisecondsUntilNextMinute_aligned T0⟩

/-- A behaviour environment whose callbacks do nothing and never throw. -/
def envSilent : ℕ → CbBehavior := fun _ => ⟨[], false⟩

/-- A behaviour environment whose callbacks all throw. -/
def envThrowing : ℕ → CbBehavior := fun _ => ⟨[], true⟩

/-- A concrete instance observed at clock 30500 ms (12:00:30.500), with
callbacks 1 and 2 registered and one pending timeout (token 5)
targeting the boundary at 60000 ms. -/
def sysExample : Sys :=
  { now := 30500, timerId := some 5, callbacks := [1, 2]
    liveTimers := [(5, 60000)], nextToken := 6, errlog := [] }

/-- Witness for C1: at clock 120000 ms the seconds and milliseconds
components are both 0 and the computed delay is a full minute. -/
theorem millisecondsUntilNextMinute_spec_witness :
    millisecondsUntilNextMinute 120000 = 60000 :=
  (millisecondsUntilNextMinute_spec 120000).2.2.2 ⟨by decide, by decide⟩

/-- Witness for C2: firing `sysExample`'s pending trigger at 60000 ms
re-arms for the boundary at 120000 ms, and `start` at 30500 ms targets
the boundary at 60000 ms (a 29500 ms delay, as in the spec scenario). -/
theorem scheduling_self_correcting_witness :
    (tick envSilent 60000 sysExample).liveTimers = [(6, 120000)] ∧
    (start sysExample).liveTimers = [(6, 60000)] := by
  have h := scheduling_self_correcting envSilent sysExample 60000 5 60000
    rfl rfl (by decide)
  exact ⟨h.2.2.2.2.1.trans (by decide), h.1.trans (by decide)⟩

/-- Witness for C4: two throwing callbacks are both invoked and produce
two diagnostic reports. -/
theorem executeCallbacks_error_isolation_witness :
    (executeCallbacks envThrowing [1, 2]).invoked = [1, 2] ∧
    (executeCallbacks envThrowing [1, 2]).errlog = [errMsg, errMsg] := by
  have h := executeCallbacks_error_isolation envThrowing envSilent [1, 2]
    sysExample (fun c => rfl)
  exact ⟨h.1, h.2.1.trans rfl⟩

/-- Witness for C5: registering callback 7 on registry `[1, 2]` and
immediately unregistering it restores `[1, 2]`, and 7 is not invoked by
a subsequent tick. -/
theorem registerCallback_unregister_spec_witness :
    unregister (registerCallback [1, 2] 7) 7 = [1, 2] ∧
    7 ∉ (executeCallbacks envSilent
        (unregister (registerCallback [1, 2] 7) 7)).invoked := by
  have h := registerCallback_unregister_spec [1, 2] [3] 7 envSilent (by decide)
  exact ⟨h.2.2.2.2.1, h.2.2.2.2.2⟩

/-- Witness for C6: the freshly constructed instance at clock 0 has at
most one live trigger, and restarting it still yields exactly one. -/
theorem pending_trigger_unique_witness :
    (construct 0).liveTimers.length ≤ 1 ∧
    (start (construct 0)).liveTimers.length = 1 := by
  have h := pending_trigger_unique envSilent 0 (construct 0) Reachable.init
  exact ⟨h.1, h.2.2.2⟩

/-- Witness for C7: stopping `sysExample` leaves no live timeout, keeps
the registry `[1, 2]`, and a would-be firing at 999999 ms changes
nothing. -/
theorem stop_spec_witness :
    (stop sysExample).liveTimers = [] ∧
    (stop sysExample).callbacks = [1, 2] ∧
    tick envSilent 999999 (stop sysExample) = stop sysExample := by
  have h := stop_spec sysExample envSilent 999999
    (Or.inr ⟨(5, 60000), rfl, rfl⟩)
  exact ⟨h.2.1, h.2.2.1, h.2.2.2.2.2⟩

/-- Witness for C8: destroying `sysExample` empties the registry and
leaves no live timeout. -/
theorem destroy_spec_witness :
    (destroy sysExample).callbacks.length = 0 ∧
    (destroy sysExample).liveTimers = [] := by
  have h := destroy_spec sysExample (Or.inr ⟨(5, 60000), rfl, rfl⟩)
  exact ⟨h.2.2.1, h.2.2.2.2.1⟩

/-- Witness for C10: registering callback 0 twice on an empty registry
yields two entries, one handle invocation leaves one, a second leaves
none. -/
theorem duplicate_registration_spec_witness :
    (registerCallback (registerCallback [] 0) 0).count 0 = 2 ∧
    (unregister (registerCallback (registerCallback [] 0) 0) 0).count 0 = 1 ∧
    unregister (unregister (registerCallback (registerCallback [] 0) 0) 0) 0
      = [] := by
  have h := duplicate_registration_spec [] 0 envSilent (by decide)
  exact ⟨h.1, h.2.2.2.1, h.2.2.2.2.1⟩

end OnTheMinute
